import Mathlib

/-!
A shallow embedding of `simba.py` (MrLYC/Simba): the namespace trie
(`Namespace`), the source slicer (`Anlyzer.get_code`), the completion-oracle
boundary (`jedi` modelled as an abstract query function), the resolution
walker (`Anlyzer.visit_ImportFrom` / `visit_Import` / `visit_Attribute`
driven by `ast.NodeTransformer`), and the unresolved reporter
(`Anlyzer.get_unsolved`).

Conventions of the embedding:
- Python exceptions are modelled with `Except Unit`; a raising computation
  returns `.error ()` together with the state as mutated up to the raise
  (Python's `try`/`except` does not roll state back).
- Python dicts are insertion-ordered association lists; dict assignment
  replaces the value in place when the key exists and appends otherwise,
  exactly like CPython.
- `os.linesep` is taken to be a single newline (the platform the program
  targets); regular-expression `\s` is modelled by `isPySpace` below.
- The analyzer state carries, besides the trie of `self.solved_names`, a
  ghost `log` of the `solve_name` invocations made by the walker (path,
  name, optional kind keyword).  The log is pure instrumentation: it is
  written exactly where the source calls `self.solve_name(...)` and read
  by no definition of the embedding, only by specification statements.
-/

namespace Simba

/-- A completion candidate as returned by the external oracle (`jedi`
completion objects).  The core reads exactly three attributes: `name`,
`type` and `module_name`.  Candidate objects are always truthy in Python,
so `completions.get(x)` is falsy iff the key is absent. -/
structure Candidate where
  name : String
  type : String
  module_name : String
deriving DecidableEq, Repr

/-- Insertion-ordered association-list lookup (Python `dict.get` /
`dict.__getitem__` key search). -/
def alookup {β : Type} : List (String × β) → String → Option β
  | [], _ => none
  | (k, v) :: rest, key => if k = key then some v else alookup rest key

/-- Insertion-ordered association-list assignment (Python `d[k] = v`):
replace in place when the key exists, append otherwise. -/
def aset {β : Type} : List (String × β) → String → β → List (String × β)
  | [], key, v => [(key, v)]
  | (k, w) :: rest, key, v =>
    if k = key then (key, v) :: rest else (k, w) :: aset rest key v

/-- Key of the last entry of an association list (the value of the loop
variable after a full `for name, completion in completions.items()` pass). -/
def lastKeyOf {β : Type} : List (String × β) → Option String
  | [] => none
  | [(k, _)] => some k
  | _ :: rest => lastKeyOf rest

/-- `{c.name: c for c in script.completions()}` (`Anlyzer.get_completions`):
build the candidate dict; a later candidate with a duplicate name
overwrites the value while keeping the first key position, like a Python
dict comprehension. -/
def buildDict (cs : List Candidate) : List (String × Candidate) :=
  cs.foldl (fun d c => aset d c.name c) []

/-- The completion oracle boundary: `jedi.Interpreter(code, [self.namespaces])
.completions()` for `self.namespaces = {}`, abstracted as a function from the
query string to a candidate list, which may raise. -/
def Oracle : Type := String → Except Unit (List Candidate)

/-- Python `\s` as used by `SPACE_PREFIX = re.compile(r"^\s*")` on
newline-free source lines. -/
def isPySpace (c : Char) : Bool :=
  c = ' ' ∨ c = '\t' ∨ c = '\n' ∨ c = '\r' ∨ c = '\x0b' ∨ c = '\x0c'

/-- `SPACE_PREFIX.search(line).group()`: the maximal leading run of
whitespace of a line. -/
def leadingSpace (s : String) : String :=
  String.mk (s.data.takeWhile isPySpace)

/-- Python string slicing `s[:n]`. -/
def takeStr (s : String) (n : Nat) : String :=
  String.mk (s.data.take n)

/-- `os.linesep.join(lines)` with `os.linesep = "\n"`. -/
def joinLines : List String → String
  | [] => ""
  | [x] => x
  | x :: rest => x ++ "\n" ++ joinLines rest

/-- `".".join(parts)`. -/
def joinDots : List String → String
  | [] => ""
  | [x] => x
  | x :: rest => x ++ "." ++ joinDots rest

/-- Python `s.split(".")` (all occurrences, empty pieces kept). -/
def splitDotAux : List Char → List Char → List String
  | [], acc => [String.mk acc.reverse]
  | c :: rest, acc =>
    if c = '.' then String.mk acc.reverse :: splitDotAux rest []
    else splitDotAux rest (c :: acc)

/-- Python `s.split(".")`. -/
def splitDot (s : String) : List String :=
  splitDotAux s.data []

/-- The path segments walked by `Anlyzer.solve_name`:
`for i in path.split("."): if not i: continue`. -/
def segments (path : String) : List String :=
  (splitDot path).filter (fun s => s ≠ "")

/-- Python `name.rsplit(".", 1)` followed by
`module = ".".join(parts[:-1]); name = parts[-1]`
(`Anlyzer.visit_Import`). -/
def rsplitDot (s : String) : String × String :=
  let parts := splitDot s
  (joinDots parts.dropLast, parts.getLastD "")

/-- Split a string into its lines at newline characters (used only to
state what "the last line" of a slicer result is). -/
def splitNLAux : List Char → List Char → List String
  | [], acc => [String.mk acc.reverse]
  | c :: rest, acc =>
    if c = '\n' then String.mk acc.reverse :: splitNLAux rest []
    else splitNLAux rest (c :: acc)

/-- The lines of a string. -/
def splitNL (s : String) : List String :=
  splitNLAux s.data []

/-- The last line of a string. -/
def lastLine (s : String) : String :=
  (splitNL s).getLastD ""

/-! ## The namespace trie (`class Namespace(dict)`) -/

mutual
/-- `Namespace`: a symbol record (`name`, `type` defaulting to
`"unknown"`, `inited`) that is simultaneously a dict from child name to
child `Namespace`. -/
inductive NS : Type where
  | mk (name : String) (type : String) (inited : Bool) (children : ChildList) : NS

/-- The dict part of a `Namespace`: insertion-ordered children. -/
inductive ChildList : Type where
  | nil : ChildList
  | cons (key : String) (val : NS) (rest : ChildList) : ChildList
end

/-- `self.name`. -/
def NS.name : NS → String
  | .mk n _ _ _ => n

/-- `self.type`. -/
def NS.type : NS → String
  | .mk _ t _ _ => t

/-- `self.inited`. -/
def NS.inited : NS → Bool
  | .mk _ _ i _ => i

/-- The dict part of the record. -/
def NS.children : NS → ChildList
  | .mk _ _ _ ch => ch

/-- `Namespace(name)`: fresh record, `type="unknown"`, `inited=False`,
no children. -/
def freshNS (name : String) : NS :=
  .mk name "unknown" false .nil

/-- Dict key search among the children. -/
def clLookup : ChildList → String → Option NS
  | .nil, _ => none
  | .cons k v rest, key => if k = key then some v else clLookup rest key

/-- Dict assignment among the children (replace in place or append). -/
def clSet : ChildList → String → NS → ChildList
  | .nil, key, v => .cons key v .nil
  | .cons k w rest, key, v =>
    if k = key then .cons key v rest else .cons k w (clSet rest key v)

/-- Dict truthiness (`if v:`). -/
def clIsEmpty : ChildList → Bool
  | .nil => true
  | .cons _ _ _ => false

/-- `parent[i]`: dict lookup falling back on `Namespace.__missing__`,
which returns a *fresh* record without inserting it into the dict. -/
def getItem (ns : NS) (key : String) : NS :=
  match clLookup ns.children key with
  | some c => c
  | none => freshNS key

/-- `d[k] = v` on the dict part of a record. -/
def NS.setChild (ns : NS) (key : String) (v : NS) : NS :=
  .mk ns.name ns.type ns.inited (clSet ns.children key v)

/-- `info.init(**kwargs)` as called by `solve_name`: the only keyword ever
passed is `type`; `inited` is set to `True` in every case. -/
def NS.initK (ns : NS) (ty : Option String) : NS :=
  .mk ns.name (ty.getD ns.type) true ns.children

/-- The chained `info = info[p]` walk of `Anlyzer.get_solved`. -/
def readWalk : NS → List String → NS
  | ns, [] => ns
  | ns, p :: rest => readWalk (getItem ns p) rest

/-- `Anlyzer.get_solved(path)`: walk the trie by `__getitem__` (reads go
through `__missing__` and never insert) and return the record iff it is
`inited`. -/
def get_solved (t : NS) (path : List String) : Option NS :=
  let info := readWalk t path
  if info.inited then some info else none

/-- The body of `Anlyzer.solve_name` after `path.split(".")`: walk the
segments by `parent = parent[i]`; a segment found in the dict aliases the
stored child (so updates through it persist), while a missing segment is a
fresh detached record from `__missing__` (updates through it are lost to
the trie).  At the end, `info = parent[name]`; if `info` is not yet
`inited` it is initialized and stored back by `parent[name] = info`.
Returns the updated trie together with the record the source returns. -/
def solveInto : NS → List String → String → Option String → NS × NS
  | t, [], name, ty =>
    let info := getItem t name
    if info.inited then (t, info)
    else
      let info' := info.initK ty
      (t.setChild name info', info')
  | t, s :: rest, name, ty =>
    match clLookup t.children s with
    | some child =>
      let r := solveInto child rest name ty
      (t.setChild s r.1, r.2)
    | none =>
      let r := solveInto (freshNS s) rest name ty
      (t, r.2)

/-- `Anlyzer.solve_name(path, name, **kwargs)`. -/
def solve_name (t : NS) (path name : String) (ty : Option String) : NS × NS :=
  solveInto t (segments path) name ty

/-- The recursive closure inside `Anlyzer.get_unsolved`: walk every child,
record the dotted path of every record whose `type` is `"unknown"`, and
recurse into children with a non-empty dict. -/
def nsVisit : ChildList → List String → List String
  | .nil, _ => []
  | .cons k (.mk _ t _ ch) rest, pre =>
    ((if t = "unknown" then [joinDots (pre ++ [k])] else []) ++
     (if clIsEmpty ch then [] else nsVisit ch (pre ++ [k]))) ++
    nsVisit rest pre

/-- `Anlyzer.get_unsolved()`: the unresolved report, a set of dotted paths
(modelled as the list accumulated in traversal order). -/
def get_unsolved (t : NS) : List String :=
  nsVisit t.children []

/-- `self.solved_names = Namespace("", "root")`: the synthetic root
record (note that its `inited` flag is `False`). -/
def rootNS : NS :=
  .mk "" "root" false .nil

/-! ## The source slicer (`Anlyzer.get_code`) -/

/-- The line list built by `Anlyzer.get_code` just before
`os.linesep.join`: `lines = self.code[:line]`; `last_line = lines[-1]`
(an `IndexError`, modelled as `none`, when the slice is empty); if
`col` is truthy, `lines[-1] = last_line[:col + 1]`; otherwise, if
`newline`, append `SPACE_PREFIX.search(last_line).group()`. -/
def get_code_lines (code : List String) (line col : Nat) (newline : Bool) :
    Option (List String) :=
  let lines := code.take line
  match lines.getLast? with
  | none => none
  | some last_line =>
    some (if col ≠ 0 then lines.dropLast ++ [takeStr last_line (col + 1)]
          else if newline then lines ++ [leadingSpace last_line]
          else lines)

/-- `Anlyzer.get_code(line, col, newline=True)`. -/
def get_code (code : List String) (line col : Nat) (newline : Bool) :
    Option String :=
  (get_code_lines code line col newline).map joinLines

/-! ## The walker (`Anlyzer` as an `ast.NodeTransformer`) -/

/-- A `solve_name` invocation as recorded by the ghost log: positional
`path` and `name`, and the `type=` keyword if one was passed. -/
structure SolveCall where
  path : String
  name : String
  ty : Option String
deriving DecidableEq, Repr

/-- The analyzer state: `self.code` (line 0 an empty sentinel),
`self.solved_names`, and the ghost log of `solve_name` invocations. -/
structure AState where
  code : List String
  solved : NS
  log : List SolveCall

/-- Perform `self.solve_name(path, name, **kwargs)` for its effect on
`self.solved_names`, recording the invocation in the ghost log. -/
def doSolve (st : AState) (path name : String) (ty : Option String) : AState :=
  { st with
    solved := (solve_name st.solved path name ty).1
    log := st.log ++ [⟨path, name, ty⟩] }

/-- `Anlyzer.get_completions_by_code`: query the oracle and build the
candidate dict. -/
def get_completions_by_code (oracle : Oracle) (s : String) :
    Except Unit (List (String × Candidate)) :=
  (oracle s).map buildDict

/-- `Anlyzer.get_completions_after_node(node, code)`:
`get_code_by_node` (which always uses `newline=True`) followed by the
oracle query; a failed slice or a raising oracle is an exception. -/
def get_completions_after_node (oracle : Oracle) (code : List String)
    (line col : Nat) (suffix : String) :
    Except Unit (List (String × Candidate)) :=
  match get_code code line col true with
  | none => .error ()
  | some s => get_completions_by_code oracle (s ++ suffix)

/-- One alias in an `import`/`from ... import` statement:
`ast.alias(name, asname)`. -/
structure Alias where
  name : String
  asname : Option String
deriving DecidableEq, Repr

/-- The expressions of the mini-AST the walker looks at: `ast.Name` and
`ast.Attribute`.  The `value` field of an attribute node is optional
because `ast.NodeTransformer` deletes a child field when a visitor
returns `None`. -/
inductive Expr : Type where
  | name (id : String) (lineno col : Nat) : Expr
  | attrE (value : Option Expr) (attrName : String) (lineno col : Nat) : Expr

/-- `node.lineno`. -/
def Expr.lineno : Expr → Nat
  | .name _ l _ => l
  | .attrE _ _ l _ => l

/-- `node.col_offset`. -/
def Expr.col : Expr → Nat
  | .name _ _ c => c
  | .attrE _ _ _ c => c

/-- The statements of the mini-AST: `ast.Import`, `ast.ImportFrom` and
expression statements (`ast.Expr`, whose `value` field may be deleted by
the transformer). -/
inductive Stmt : Type where
  | importS (names : List Alias) (lineno col : Nat) : Stmt
  | importFrom (module : String) (names : List Alias) (lineno col : Nat) : Stmt
  | exprStmt (value : Option Expr) (lineno col : Nat) : Stmt

/-- The `safe_node_visitor` decorator: run the handler; if it raises,
swallow the fault and return the node unchanged, keeping the state
exactly as the handler left it at the raise (Python `except` does not
roll back `self.solved_names`). -/
def safe_node_visitor {α : Type}
    (f : AState → α → AState × Except Unit (Option α))
    (st : AState) (node : α) : AState × Option α :=
  match f st node with
  | (st', .ok r) => (st', r)
  | (st', .error _) => (st', some node)

/-- The body of `Anlyzer.visit_ImportFrom` before the decorator: one
oracle query `slice + "from M import "`, then for every alias look up its
*original* name among the candidates; found names are solved with the
candidate's `type` keyword, absent names are solved with no keyword. -/
def raw_visit_ImportFrom (oracle : Oracle) (st : AState) (s : Stmt) :
    AState × Except Unit (Option Stmt) :=
  match s with
  | .importFrom module names l c =>
    match get_completions_after_node oracle st.code l c
        ("from " ++ module ++ " import ") with
    | .error _ => (st, .error ())
    | .ok completions =>
      let st' := names.foldl (fun st a =>
        match alookup completions a.name with
        | none => doSolve st module a.name none
        | some cand => doSolve st module a.name (some cand.type)) st
      (st', .ok (some (.importFrom module names l c)))
  | other => (st, .ok (some other))

/-- `name.asname or "_M"` (an empty-string alias is falsy in Python). -/
def asnameOf : Option String → String
  | some a => if a = "" then "_M" else a
  | none => "_M"

/-- The per-alias loop of `Anlyzer.visit_Import`: for each alias, query
`slice + "import <name> as <asname>\n<asname>."`; `rsplit` the dotted
name into parent and leaf; a non-empty candidate dict solves the leaf
with `type="module"`, an empty one solves it with no keyword. -/
def importNamesLoop (oracle : Oracle) (l c : Nat) :
    List Alias → AState → AState × Except Unit Unit
  | [], st => (st, .ok ())
  | a :: rest, st =>
    let asn := asnameOf a.asname
    match get_completions_after_node oracle st.code l c
        ("import " ++ a.name ++ " as " ++ asn ++ "\n" ++ asn ++ ".") with
    | .error _ => (st, .error ())
    | .ok completions =>
      let ml := rsplitDot a.name
      importNamesLoop oracle l c rest
        (doSolve st ml.1 ml.2
          (if completions.isEmpty then none else some "module"))

/-- The body of `Anlyzer.visit_Import` before the decorator. -/
def raw_visit_Import (oracle : Oracle) (st : AState) (s : Stmt) :
    AState × Except Unit (Option Stmt) :=
  match s with
  | .importS names l c =>
    match importNamesLoop oracle l c names st with
    | (st', .ok _) => (st', .ok (some (.importS names l c)))
    | (st', .error _) => (st', .error ())
  | other => (st, .ok (some other))

/-- The chain decomposition at the top of `Anlyzer.visit_Attribute`:
collect the attribute names innermost-first, then prepend the root `id`
when the innermost value is a `Name` (a deleted value contributes no
root). -/
def decomposeChain : Expr → List String → List String
  | .name i _ _, acc => i :: acc
  | .attrE none a _ _, acc => a :: acc
  | .attrE (some v) a _ _, acc => decomposeChain v (a :: acc)

/-- The `for i in range(1, len(attrs))` loop of `Anlyzer.visit_Attribute`.
`pre` is `attrs[:i]`, the remaining list holds `attrs[i:]`; `parent?` is
the `parent` variable (`None` until the first candidate is found);
`lastName` is the value left in the loop variable `name` by a previous
inner iteration (referencing it when it was never assigned is a
`NameError`).  The inner `for ... else` looks the current segment up in
the candidate dict: when found, the segment is solved under
`parent.module_name` with the candidate's type and the candidate becomes
the new parent; when absent, the *leaked* loop variable (the dict's last
key, or the stale previous value when the dict is empty) is solved
unresolved under `parent.module_name`, and the walk continues. -/
def attrLoop (oracle : Oracle) (l c : Nat) :
    List String → List String → Option Candidate → Option String → AState →
    AState × Except Unit Unit
  | _, [], _, _, st => (st, .ok ())
  | pre, attrN :: rest, parent?, lastName, st =>
    match get_completions_after_node oracle st.code l c (joinDots pre) with
    | .error _ => (st, .error ())
    | .ok completions =>
      match (match parent? with
             | none => alookup completions attrN
             | some p => some p) with
      | none => (doSolve st "" attrN none, .ok ())
      | some parent =>
        match alookup completions attrN with
        | some comp =>
          attrLoop oracle l c (pre ++ [attrN]) rest (some comp) (some attrN)
            (doSolve st parent.module_name attrN (some comp.type))
        | none =>
          match lastKeyOf completions <|> lastName with
          | none => (st, .error ())
          | some nm =>
            attrLoop oracle l c (pre ++ [attrN]) rest (some parent) (some nm)
              (doSolve st parent.module_name nm none)

/-- The body of `Anlyzer.visit_Attribute` before the decorator: decompose
the chain, run the loop, and fall off the end (the source has no
`return node` here, so the handler returns `None` on success). -/
def raw_visit_Attribute (oracle : Oracle) (st : AState) (e : Expr) :
    AState × Except Unit (Option Expr) :=
  match decomposeChain e [] with
  | [] => (st, .ok none)
  | a :: rest =>
    match attrLoop oracle e.lineno e.col [a] rest none none st with
    | (st', .ok _) => (st', .ok none)
    | (st', .error _) => (st', .error ())

/-- `NodeTransformer.visit` on an expression: `ast.Attribute` dispatches
to the decorated handler, everything else (here `ast.Name`, which has no
child AST fields) passes through `generic_visit` unchanged. -/
def visitExpr (oracle : Oracle) (st : AState) (e : Expr) :
    AState × Option Expr :=
  match e with
  | .attrE v a l c => safe_node_visitor (raw_visit_Attribute oracle) st (Expr.attrE v a l c)
  | .name i l c => (st, some (.name i l c))

/-- `NodeTransformer.visit` on a statement: `ast.Import` and
`ast.ImportFrom` dispatch to their decorated handlers; an expression
statement goes through `generic_visit`, which visits its `value` field
and *deletes the field* when the visitor returns `None`. -/
def visitStmt (oracle : Oracle) (st : AState) (s : Stmt) :
    AState × Option Stmt :=
  match s with
  | .importS names l c =>
    safe_node_visitor (raw_visit_Import oracle) st (Stmt.importS names l c)
  | .importFrom m names l c =>
    safe_node_visitor (raw_visit_ImportFrom oracle) st (Stmt.importFrom m names l c)
  | .exprStmt none l c => (st, some (.exprStmt none l c))
  | .exprStmt (some e) l c =>
    let r := visitExpr oracle st e
    (r.1, some (.exprStmt r.2 l c))

/-- `generic_visit` on the `body` list of an `ast.Module`: visit each
statement in order, dropping the ones whose visitor returned `None`. -/
def visitBody (oracle : Oracle) (st : AState) : List Stmt → AState × List Stmt
  | [] => (st, [])
  | s :: rest =>
    let r1 := visitStmt oracle st s
    let r2 := visitBody oracle r1.1 rest
    (r2.1, (match r1.2 with | none => [] | some s' => [s']) ++ r2.2)

/-- `Anlyzer.visit` on a whole module (the module node itself has no
handler, so the transformer rebuilds it from the visited body). -/
def visitModule (oracle : Oracle) (st : AState) (body : List Stmt) :
    AState × List Stmt :=
  visitBody oracle st body

/-! ## Specification-side definitions and witness fixtures -/

/-- Replay a sequence of `solve_name` invocations against a trie. -/
def applySolves : List SolveCall → NS → NS
  | [], t => t
  | c :: rest, t => applySolves rest (solve_name t c.path c.name c.ty).1

/-- The slicer as the claim words it: the lines strictly before `line`
followed by the prefix of line `line` up to `column`, the character at
`column` and beyond dropped. -/
def sliceClaimed (code : List String) (line col : Nat) : String :=
  joinLines (code.take line ++ [takeStr (code.getD line "") col])

/-- The slicer as the source actually behaves for a positive column: the
lines strictly before `line`, except that the last of them (line
`line - 1`) is truncated to its first `col + 1` characters (the
character at column `col` is kept); line `line` itself is not included. -/
def sliceAmended (code : List String) (line col : Nat) : String :=
  joinLines (code.take (line - 1) ++ [takeStr (code.getD (line - 1) "") (col + 1)])

/-- An oracle that always answers with no candidates. -/
def oracleE : Oracle := fun _ => .ok []

/-- An oracle that always raises. -/
def badO : Oracle := fun _ => .error ()

/-- Analyzer state for the `from foo import bar` scenario. -/
def c1st : AState := ⟨["", "from foo import bar"], rootNS, []⟩

/-- The `from foo import bar` statement node. -/
def c1node : Stmt := .importFrom "foo" [⟨"bar", none⟩] 1 0

/-- The attribute chain `a.b` at line 1, column 0. -/
def c8expr : Expr := .attrE (some (.name "a" 1 0)) "b" 1 0

/-- Analyzer state for the `a.b` scenario. -/
def c8st : AState := ⟨["", "a.b"], rootNS, []⟩

/-- The expression statement holding the `a.b` chain. -/
def c8stmt : Stmt := .exprStmt (some c8expr) 1 0

/-- Analyzer state for the `re.match` scenario. -/
def c4st : AState := ⟨["", "re.match"], rootNS, []⟩

/-- A one-statement module whose only statement is the expression
statement `re.match`. -/
def c4body : List Stmt :=
  [.exprStmt (some (.attrE (some (.name "re" 1 0)) "match" 1 0)) 1 0]

/-- A candidate named `path` of kind `module`, defined in module `os`. -/
def cW9 : Candidate := ⟨"path", "module", "os"⟩

/-- An oracle that always answers with the single candidate `cW9`. -/
def oracleW9 : Oracle := fun _ => .ok [cW9]

/-- Analyzer state for the `import os.path as p` scenario. -/
def stW9 : AState := ⟨["", "import os.path as p"], rootNS, []⟩

/-! ## Lemmas about the trie -/

/-- Dict lookup after dict assignment. -/
theorem clLookup_clSet (k k' : String) (v : NS) :
    (cl : ChildList) →
    clLookup (clSet cl k v) k' = if k = k' then some v else clLookup cl k'
  | .nil => by by_cases h : k = k' <;> simp [clSet, clLookup, h]
  | .cons key val rest => by
    have ih := clLookup_clSet k k' v rest
    by_cases hk : key = k
    · subst hk
      by_cases h : key = k' <;> simp [clSet, clLookup, h]
    · have hset : clSet (.cons key val rest) k v = .cons key val (clSet rest k v) := by
        simp [clSet, hk]
      rw [hset]
      by_cases h : key = k'
      · subst h
        have h2 : ¬k = key := fun he => hk he.symm
        simp [clLookup, h2]
      · simp [clLookup, h, ih]

/-- `__getitem__` of the just-assigned key. -/
theorem getItem_setChild_same (t : NS) (k : String) (v : NS) :
    getItem (t.setChild k v) k = v := by
  cases t with
  | mk nm ty i ch =>
    simp [getItem, NS.setChild, NS.children, NS.name, NS.type, NS.inited, clLookup_clSet]

/-- `__getitem__` of a key other than the just-assigned one. -/
theorem getItem_setChild_other (t : NS) (k k' : String) (v : NS) (h : k ≠ k') :
    getItem (t.setChild k v) k' = getItem t k' := by
  cases t with
  | mk nm ty i ch =>
    simp [getItem, NS.setChild, NS.children, NS.name, NS.type, NS.inited, clLookup_clSet, h]

/-- `init` does not touch the dict part of a record. -/
theorem getItem_initK (ns : NS) (ty : Option String) (k : String) :
    getItem (ns.initK ty) k = getItem ns k := by
  cases ns; rfl

/-- Dict assignment does not touch the `inited` flag of the parent. -/
theorem inited_setChild (t : NS) (k : String) (v : NS) :
    (t.setChild k v).inited = t.inited := by
  cases t; rfl

/-- Walking from an uninitialized, childless record can only reach
uninitialized records: every step goes through `__missing__`. -/
theorem readWalk_barren (q : List String) :
    ∀ (nm ty : String), (readWalk (NS.mk nm ty false .nil) q).inited = false := by
  induction q with
  | nil => intro nm ty; rfl
  | cons a q ih =>
    intro nm ty
    show (readWalk (getItem (NS.mk nm ty false .nil) a) q).inited = false
    exact ih a "unknown"

/-- Where a `solve_name` walk can leave an initialized record: a path
that reads as initialized after the walk either read so before, or is
exactly the walked path (segments plus the final name).  In particular a
walk whose first missing segment detaches leaves the trie unchanged. -/
theorem solve_reach :
    ∀ (segs : List String) (t : NS) (n : String) (ty : Option String) (q : List String),
      (readWalk (solveInto t segs n ty).1 q).inited = true →
      (readWalk t q).inited = true ∨ q = segs ++ [n] := by
  intro segs
  induction segs with
  | nil =>
    intro t n ty q h
    by_cases hI : (getItem t n).inited
    · have e : (solveInto t [] n ty).1 = t := by simp [solveInto, hI]
      rw [e] at h
      exact Or.inl h
    · have e : (solveInto t [] n ty).1 = t.setChild n ((getItem t n).initK ty) := by
        simp [solveInto, hI]
      rw [e] at h
      cases q with
      | nil =>
        left
        have : (readWalk (t.setChild n ((getItem t n).initK ty)) []).inited = t.inited := by
          simpa [readWalk] using inited_setChild t n ((getItem t n).initK ty)
        rw [this] at h
        exact h
      | cons a q' =>
        have h' : (readWalk (getItem (t.setChild n ((getItem t n).initK ty)) a) q').inited
            = true := h
        by_cases hn : n = a
        · subst hn
          rw [getItem_setChild_same] at h'
          cases q' with
          | nil => exact Or.inr rfl
          | cons b q'' =>
            have h'' : (readWalk (getItem (getItem t n) b) q'').inited = true := by
              have : readWalk ((getItem t n).initK ty) (b :: q'')
                  = readWalk (getItem ((getItem t n).initK ty) b) q'' := rfl
              rw [this, getItem_initK] at h'
              exact h'
            cases hc : clLookup t.children n with
            | some child =>
              left
              have hg : getItem t n = child := by simp [getItem, hc]
              show (readWalk (getItem t n) (b :: q'')).inited = true
              rw [hg]
              show (readWalk (getItem child b) q'').inited = true
              rw [hg] at h''
              exact h''
            | none =>
              exfalso
              have hg : getItem t n = freshNS n := by simp [getItem, hc]
              rw [hg] at h''
              have hb : getItem (freshNS n) b = freshNS b := rfl
              rw [hb] at h''
              have := readWalk_barren q'' b "unknown"
              rw [show freshNS b = NS.mk b "unknown" false .nil from rfl] at h''
              rw [this] at h''
              exact Bool.noConfusion h''
        · rw [getItem_setChild_other t n a _ hn] at h'
          exact Or.inl h'
  | cons s rest ih =>
    intro t n ty q h
    cases hc : clLookup t.children s with
    | none =>
      have e : (solveInto t (s :: rest) n ty).1 = t := by simp [solveInto, hc]
      rw [e] at h
      exact Or.inl h
    | some child =>
      have e : (solveInto t (s :: rest) n ty).1
          = t.setChild s (solveInto child rest n ty).1 := by simp [solveInto, hc]
      rw [e] at h
      cases q with
      | nil =>
        left
        have : (readWalk (t.setChild s (solveInto child rest n ty).1) []).inited
            = t.inited := by
          simpa [readWalk] using inited_setChild t s (solveInto child rest n ty).1
        rw [this] at h
        exact h
      | cons a q' =>
        have h' : (readWalk (getItem (t.setChild s (solveInto child rest n ty).1) a)
            q').inited = true := h
        by_cases hs : s = a
        · subst hs
          rw [getItem_setChild_same] at h'
          rcases ih child n ty q' h' with h'' | h''
          · left
            have hg : getItem t s = child := by simp [getItem, hc]
            show (readWalk (getItem t s) q').inited = true
            rw [hg]
            exact h''
          · right
            rw [h'']
            rfl
        · rw [getItem_setChild_other t s a _ hs] at h'
          exact Or.inl h'

/-- Replaying any sequence of `solve_name` calls: an initialized path
after the replay either was initialized before, or is the full dotted
path of one of the calls. -/
theorem applySolves_reach :
    ∀ (cs : List SolveCall) (t : NS) (q : List String),
      (readWalk (applySolves cs t) q).inited = true →
      (readWalk t q).inited = true ∨ ∃ c ∈ cs, q = segments c.path ++ [c.name] := by
  intro cs
  induction cs with
  | nil => intro t q h; exact Or.inl h
  | cons c rest ih =>
    intro t q h
    rcases ih _ q h with h' | ⟨c', hc', he⟩
    · rcases solve_reach (segments c.path) t c.name c.ty q h' with h'' | h''
      · exact Or.inl h''
      · exact Or.inr ⟨c, by simp, h''⟩
    · exact Or.inr ⟨c', by simp [hc'], he⟩

/-! ## Lemmas about the slicer -/

/-- The last element of `code[:line]` is line `line - 1`. -/
theorem take_getLast (code : List String) (L : Nat) (h1 : 0 < L)
    (h2 : L ≤ code.length) :
    (code.take L).getLast? = some (code.getD (L - 1) "") := by
  rw [List.getLast?_eq_getElem?, List.getElem?_take, List.length_take]
  have hmin : L ⊓ code.length = L := Nat.min_eq_left h2
  rw [hmin]
  have hlt : L - 1 < L := Nat.sub_lt h1 Nat.one_pos
  rw [if_pos hlt, List.getD_eq_getElem?_getD]
  have hlen : L - 1 < code.length := Nat.lt_of_lt_of_le hlt h2
  rw [List.getElem?_eq_getElem hlen]
  rfl

/-- Dropping the last element of `code[:line]` leaves `code[:line-1]`. -/
theorem take_dropLast (code : List String) (L : Nat) (h2 : L ≤ code.length) :
    (code.take L).dropLast = code.take (L - 1) := by
  rw [List.dropLast_eq_take, List.length_take, List.take_take]
  have hmin : L ⊓ code.length = L := Nat.min_eq_left h2
  rw [hmin]
  have : (L - 1) ⊓ L = L - 1 := Nat.min_eq_left (Nat.sub_le L 1)
  rw [this]

/-! ## The claims -/

/-- C1: the claim says that after `visit_ImportFrom` handles
`from foo import bar` with an oracle returning no candidate named `bar`,
the path `foo.bar` is in the set returned by `get_unsolved`.  The code
violates this: `solve_name("foo", "bar")` builds the record inside the
fresh detached `Namespace` that `__missing__` returned for the missing
segment `foo` and never inserts it into `self.solved_names`, so the
unresolved report stays empty — even though the ghost log shows the
walker did request exactly that unresolved record. -/
theorem claim_C1_eval :
    "foo.bar" ∉ get_unsolved ((visitStmt oracleE c1st c1node).1).solved ∧
    ((visitStmt oracleE c1st c1node).1).log = [⟨"foo", "bar", none⟩] :=
  ⟨by decide, rfl⟩

/-- C2: the claim says `solve_name` persists a placeholder for every
missing segment so that `get_solved` on the same path reaches the record,
for paths of any length.  The code violates this for any path with more
than one segment: solving name `b` under path `a` on a fresh trie leaves
the trie identical to the root (nothing persisted), and `get_solved` on
`["a", "b"]` returns `None`. -/
theorem claim_C2_eval :
    (solve_name rootNS "a" "b" none).1 = rootNS ∧
    get_solved (solve_name rootNS "a" "b" none).1 ["a", "b"] = none :=
  ⟨rfl, rfl⟩

/-- C3 counterexample: on `code = ["", "abc", "xyz"]`, line 2, column 1,
`get_code` does not return the lines strictly before line 2 followed by
the prefix of line 2 up to column 1: it returns `"\nab"` (line 1
truncated to its first two characters, line 2 absent) while the claim
demands `"\nabc\nx"`. -/
theorem claim_C3_cex :
    get_code ["", "abc", "xyz"] 2 1 true ≠ some (sliceClaimed ["", "abc", "xyz"] 2 1) := by
  decide

/-- C3 amended: for every in-bounds line `L` and column `C > 0`,
`get_code` returns the lines strictly before `L`, except that the last of
them (line `L - 1`) is truncated to its first `C + 1` characters — the
character at column `C` is kept, and line `L` itself is not included. -/
theorem claim_C3_amended (code : List String) (L C : Nat) (nl : Bool)
    (h1 : 0 < L) (h2 : L ≤ code.length) (hC : 0 < C) :
    get_code code L C nl = some (sliceAmended code L C) := by
  simp only [get_code, get_code_lines, sliceAmended]
  rw [take_getLast code L h1 h2]
  have hC' : C ≠ 0 := Nat.pos_iff_ne_zero.mp hC
  simp only [hC', if_true, ne_eq, not_false_eq_true, Option.map_some']
  rw [take_dropLast code L h2]

/-- C3 amended, witnessed at `code = ["", "abc", "xyz"]`, line 2,
column 1. -/
theorem claim_C3_witness :
    (0 < 2 ∧ 2 ≤ (["", "abc", "xyz"] : List String).length ∧ 0 < 1) ∧
    get_code ["", "abc", "xyz"] 2 1 true = some (sliceAmended ["", "abc", "xyz"] 2 1) :=
  ⟨⟨by decide, by decide, by decide⟩,
   claim_C3_amended ["", "abc", "xyz"] 2 1 true (by decide) (by decide) (by decide)⟩

/-- C4: the claim says `Anlyzer.visit` returns the tree structurally
unmodified, attribute-chain nodes included.  The code violates this:
`visit_Attribute` has no `return node`, so the decorated handler returns
`None` on success and `ast.NodeTransformer.generic_visit` deletes the
parent's `value` field.  On the one-statement module `re.match` the
visited tree differs from the input tree. -/
theorem claim_C4_eval :
    (visitModule oracleE c4st c4body).2 ≠ c4body := by
  intro h
  have h1 : (visitModule oracleE c4st c4body).2 = [.exprStmt none 1 0] := rfl
  rw [h1] at h
  have h2 : ([Stmt.exprStmt none 1 0] : List Stmt)
      = [.exprStmt (some (.attrE (some (.name "re" 1 0)) "match" 1 0)) 1 0] := h
  injection h2 with h3 h4
  injection h3 with h5 h6 h7
  exact Option.noConfusion h5

/-- C5: the claim says resolving the same dotted path twice with two
different kinds yields the kind of the first resolution, for all paths.
The code violates this for multi-segment paths: the first record is
never persisted (see C2), so the second `solve_name` call builds and
initializes a fresh record carrying the *second* kind. -/
theorem claim_C5_eval :
    ((solve_name rootNS "a" "b" (some "module")).2).type = "module" ∧
    ((solve_name ((solve_name rootNS "a" "b" (some "module")).1)
        "a" "b" (some "class")).2).type = "class" :=
  ⟨rfl, rfl⟩

/-- C6: the `safe_node_visitor` failure boundary.  Whenever a wrapped
handler (each of `visit_ImportFrom`, `visit_Import`, `visit_Attribute` is
`safe_node_visitor` applied to its body) raises, the wrapper swallows the
fault and returns the node unchanged, with the state exactly as the
handler left it at the raise — resolutions recorded before the fault are
kept, nothing is rolled back, and the traversal (which applies the total
wrapped handler node by node) continues with the remaining nodes. -/
theorem claim_C6 {α : Type} (f : AState → α → AState × Except Unit (Option α))
    (st st' : AState) (node : α)
    (h : f st node = (st', .error ())) :
    safe_node_visitor f st node = (st', some node) := by
  simp [safe_node_visitor, h]

/-- C6 witnessed on the actual `visit_ImportFrom` body with an oracle
that raises. -/
theorem claim_C6_witness :
    raw_visit_ImportFrom badO c1st c1node = (c1st, .error ()) ∧
    safe_node_visitor (raw_visit_ImportFrom badO) c1st c1node = (c1st, some c1node) :=
  ⟨rfl, claim_C6 _ _ _ _ rfl⟩

/-- C7 counterexample: line 2 of `["", "x=1", "    y"]` has leading
whitespace `"    "`, yet `get_code(2, 0, True)` returns a string whose
last line is `""` — the leading whitespace of line 1, not of line 2. -/
theorem claim_C7_cex :
    leadingSpace ((["", "x=1", "    y"] : List String).getD 2 "") = "    " ∧
    (get_code ["", "x=1", "    y"] 2 0 true).map lastLine ≠ some "    " := by
  decide

/-- C7 amended: for every in-bounds line `L`, the line list built by
`get_code(L, 0, True)` ends with the leading whitespace of line `L - 1`
(the last line of `code[:line]`), not of line `L` itself. -/
theorem claim_C7_amended (code : List String) (L : Nat)
    (h1 : 0 < L) (h2 : L ≤ code.length) :
    (get_code_lines code L 0 true).bind List.getLast?
      = some (leadingSpace (code.getD (L - 1) "")) := by
  simp only [get_code_lines]
  rw [take_getLast code L h1 h2]
  simp [List.getLast?_concat]

/-- C7 amended, witnessed at `code = ["", "    x=1", "    y"]`, line 2:
the final line is the leading whitespace `"    "` of line 1. -/
theorem claim_C7_witness :
    (0 < 2 ∧ 2 ≤ (["", "    x=1", "    y"] : List String).length) ∧
    (get_code_lines ["", "    x=1", "    y"] 2 0 true).bind List.getLast? = some "    " :=
  ⟨⟨by decide, by decide⟩,
   claim_C7_amended ["", "    x=1", "    y"] 2 (by decide) (by decide)⟩

/-- C8 counterexample: visiting the chain `a.b` when the oracle offers no
candidate for the first segment does *not* mark the root path `a`
unresolved — no record for `a` is created at all (the handler instead
records the first attribute segment `b` directly under the root). -/
theorem claim_C8_cex :
    "a" ∉ get_unsolved ((visitStmt oracleE c8st c8stmt).1).solved ∧
    get_solved ((visitStmt oracleE c8st c8stmt).1).solved ["a"] = none :=
  ⟨by decide, rfl⟩

/-- C8 amended: when the first attribute segment of a chain is not among
the candidates returned for the root query (the root fails to resolve),
`visit_Attribute` performs exactly one resolution — the *first attribute
segment* (not the root name) is recorded unresolved directly under the
trie root — and stops: no entries for any later segment of the chain are
created. -/
theorem claim_C8_amended (oracle : Oracle) (st : AState) (e : Expr)
    (root a1 : String) (rest : List String) (d : List (String × Candidate))
    (hdec : decomposeChain e [] = root :: a1 :: rest)
    (hq : get_completions_after_node oracle st.code e.lineno e.col root = .ok d)
    (hmiss : alookup d a1 = none) :
    raw_visit_Attribute oracle st e = (doSolve st "" a1 none, .ok none) := by
  have hl : attrLoop oracle e.lineno e.col [root] (a1 :: rest) none none st
      = (doSolve st "" a1 none, .ok ()) := by
    have hj : joinDots [root] = root := rfl
    simp [attrLoop, hj, hq, hmiss]
  simp [raw_visit_Attribute, hdec, hl]

/-- C8 amended, witnessed on the chain `a.b` with an empty oracle. -/
theorem claim_C8_witness :
    decomposeChain c8expr [] = ["a", "b"] ∧
    raw_visit_Attribute oracleE c8st c8expr = (doSolve c8st "" "b" none, .ok none) :=
  ⟨rfl, claim_C8_amended oracleE c8st c8expr "a" "b" [] [] rfl rfl rfl⟩

/-- C9: `visit_Import` splits a dotted imported name with `rsplit` into
parent path and leaf, queries the oracle through the synthetic
`import <name> as <alias>\n<alias>.` suffix, and solves the leaf under
the parent path — with `type="module"` exactly when the candidate dict is
non-empty, with no kind otherwise.  (The solve request is recorded in
the ghost log; whether it persists in the trie is C2's concern.) -/
theorem claim_C9 (oracle : Oracle) (st : AState) (nm : String) (asn : Option String)
    (l c : Nat) (d : List (String × Candidate))
    (h : get_completions_after_node oracle st.code l c
        ("import " ++ nm ++ " as " ++ asnameOf asn ++ "\n" ++ asnameOf asn ++ ".")
        = .ok d) :
    raw_visit_Import oracle st (.importS [⟨nm, asn⟩] l c)
      = (doSolve st (rsplitDot nm).1 (rsplitDot nm).2
          (if d.isEmpty then none else some "module"),
         .ok (some (.importS [⟨nm, asn⟩] l c))) := by
  simp [raw_visit_Import, importNamesLoop, h]

/-- C9 witnessed on `import os.path as p` with an oracle returning one
candidate: the leaf `path` is solved under parent `os` as kind
`module`. -/
theorem claim_C9_witness :
    rsplitDot "os.path" = ("os", "path") ∧
    raw_visit_Import oracleW9 stW9 (.importS [⟨"os.path", some "p"⟩] 1 0)
      = (doSolve stW9 "os" "path" (some "module"),
         .ok (some (.importS [⟨"os.path", some "p"⟩] 1 0))) :=
  ⟨rfl, claim_C9 oracleW9 stW9 "os.path" (some "p") 1 0 [("path", cW9)] rfl⟩

/-- C10: reads never create persistent entries.  `__missing__` returns a
fresh placeholder without inserting it (in this embedding reads are
therefore pure functions of the trie), so after replaying any sequence of
`solve_name` calls against the fresh root, `get_solved` returns `None`
on every path that is not the exact dotted path of one of those calls. -/
theorem claim_C10 (cs : List SolveCall) (q : List String)
    (h : ∀ c ∈ cs, q ≠ segments c.path ++ [c.name]) :
    get_solved (applySolves cs rootNS) q = none := by
  unfold get_solved
  cases hI : (readWalk (applySolves cs rootNS) q).inited with
  | false => simp [hI]
  | true =>
    exfalso
    rcases applySolves_reach cs rootNS q hI with h' | ⟨c, hc, he⟩
    · rw [show rootNS = NS.mk "" "root" false .nil from rfl] at h'
      rw [readWalk_barren q "" "root"] at h'
      exact Bool.noConfusion h'
    · exact h c hc he

/-- C10 witnessed: after solving name `a` under the empty path, reading
the never-solved path `["b"]` yields `None`. -/
theorem claim_C10_witness :
    (∀ c ∈ [(⟨"", "a", none⟩ : SolveCall)], ["b"] ≠ segments c.path ++ [c.name]) ∧
    get_solved (applySolves [⟨"", "a", none⟩] rootNS) ["b"] = none :=
  ⟨by decide, claim_C10 [⟨"", "a", none⟩] ["b"] (by decide)⟩

end Simba
